import Mathlib

/-!
Verification development for the spraay-x402-gateway quote-and-compose core.

The TypeScript sources are shallowly embedded as executable Lean definitions:

* decimal-amount conversion (the repository calls ethers v6 parseUnits and
  formatUnits; those library functions are modelled here from their
  documented/observable semantics over decimal strings and BigInt values,
  with JavaScript BigInt arithmetic rendered as unbounded Int arithmetic
  and BigInt division as truncation toward zero);
* the token tables and resolvers of src/routes/batch-payments.ts,
  src/routes/swap-data.ts and the Uniswap-quoter swap route file;
* the V2/V3 batch execute and estimate handlers;
* the Uniswap V3 quote search (direct tiers plus the WETH two-hop fallback),
  with the external on-chain quoter modelled as an oracle parameter; a probe
  that throws (missing pool or transport error - the code cannot tell them
  apart, both land in the same catch) is an oracle result of none.

Display-only fields computed with JavaScript floating point in the sources
(feePercent, executionPrice, priceImpact percentages) are omitted from the
embedded response records; every field kept here is integer- or
string-valued in the source.
-/

namespace S2P

/-- Decidable equality of Except values, for evaluating handler outcomes on
concrete inputs. -/
instance {ε α : Type} [DecidableEq ε] [DecidableEq α] :
    DecidableEq (Except ε α) := fun x y =>
  match x, y with
  | .error a, .error b =>
    if h : a = b then .isTrue (by rw [h])
    else .isFalse (by intro hc; cases hc; exact h rfl)
  | .error _, .ok _ => .isFalse (by intro hc; cases hc)
  | .ok _, .error _ => .isFalse (by intro hc; cases hc)
  | .ok a, .ok b =>
    if h : a = b then .isTrue (by rw [h])
    else .isFalse (by intro hc; cases hc; exact h rfl)

/-! ### Decimal digit machinery -/

/-- Numeric value of a decimal digit character (char code minus 48). -/
def digitVal (c : Char) : Nat := c.toNat - 48

/-- Recogniser for the character class 0-9 used by the ethers number regex. -/
def isDigitCh (c : Char) : Bool := 48 ≤ c.toNat && c.toNat ≤ 57

/-- Value of a big-endian list of digit characters, as folded up by a
decimal parser. -/
def chunkVal (l : List Char) : Nat := l.foldl (fun a c => 10 * a + digitVal c) 0

/-- Value of a big-endian list of digits. -/
def ofDigits (l : List Nat) : Nat := l.foldl (fun a d => 10 * a + d) 0

/-- Fuelled big-endian decimal digits of a natural number. -/
def natDigitsAux : Nat → Nat → List Nat
  | 0, _ => []
  | f + 1, n => if n < 10 then [n] else natDigitsAux f (n / 10) ++ [n % 10]

/-- Big-endian decimal digits of a natural number (natDigits 0 = [0]). -/
def natDigits (n : Nat) : List Nat := natDigitsAux (n + 1) n

/-! ### Model of ethers v6 parseUnits -/

/-- Split a character list at its unique dot, failing when more than one dot
occurs; mirrors the shape admitted by the ethers FixedNumber.fromString
regular expression digits-optional-dot-digits. -/
def splitDot : List Char → Option (List Char × List Char)
  | [] => some ([], [])
  | c :: rest =>
    if c = '.' then
      if rest.contains '.' then none else some ([], rest)
    else (splitDot rest).map (fun wf => (c :: wf.1, wf.2))

/-- Core of parseUnits on an unsigned character list: whole and fractional
digit runs, at least one digit overall, at most d fractional digits; value
is whole scaled by 10 to the d plus the fraction padded to d digits. -/
def parseUnitsCore (cs : List Char) (d : Nat) : Option Nat :=
  (splitDot cs).bind (fun wf =>
    if wf.1.all isDigitCh && wf.2.all isDigitCh &&
        decide (0 < wf.1.length + wf.2.length) && decide (wf.2.length ≤ d) then
      some (chunkVal wf.1 * 10 ^ d + chunkVal wf.2 * 10 ^ (d - wf.2.length))
    else none)

/-- Model of ethers v6 parseUnits: an optionally signed decimal string is
scaled exactly to integer base units; a string with more fractional digits
than d throws in ethers, modelled as none. -/
def parseUnits (s : String) (d : Nat) : Option Int :=
  match s.toList with
  | [] => none
  | c :: rest =>
    if c = '-' then (parseUnitsCore rest d).map (fun n => -(Int.ofNat n))
    else (parseUnitsCore (c :: rest) d).map (fun n => Int.ofNat n)

/-! ### Model of ethers v6 formatUnits -/

/-- Left-pad a digit list with zeros to length d. -/
def padFrac (d : Nat) (l : List Nat) : List Nat :=
  List.replicate (d - l.length) 0 ++ l

/-- Drop trailing zeros of a fractional digit list, keeping at least one
digit, as the ethers formatter does. -/
def trimFrac (l : List Nat) : List Nat :=
  let t := (l.reverse.dropWhile (· == 0)).reverse
  if t.isEmpty then [0] else t

/-- Character list of formatUnits output for a value in base units: the
decimal rendering of the whole part, then a dot, then the d-digit fraction
with trailing zeros trimmed down to at least one digit (no dot at all when
d is zero), exactly the string ethers v6 formatUnits produces. -/
def formatChars (v : Nat) (d : Nat) : List Char :=
  if d = 0 then (natDigits v).map Nat.digitChar
  else
    (natDigits (v / 10 ^ d)).map Nat.digitChar ++
      '.' :: (trimFrac (padFrac d (natDigits (v % 10 ^ d)))).map Nat.digitChar

/-- Model of ethers v6 formatUnits on non-negative base-unit values. -/
def formatUnits (v : Nat) (d : Nat) : String := String.mk (formatChars v d)

/-- Model of ethers v6 formatUnits on arbitrary BigInt base-unit values:
a minus sign is prefixed for negative values. -/
def formatUnitsInt (v : Int) (d : Nat) : String :=
  if v < 0 then String.mk ('-' :: formatChars v.natAbs d)
  else formatUnits v.natAbs d

/-! ### ASCII case mapping (JavaScript toUpperCase and toLowerCase on the
ASCII identifiers used by the token tables) -/

/-- Uppercase an ASCII letter, other characters unchanged. -/
def charUpper (c : Char) : Char :=
  match c with
  | 'a' => 'A' | 'b' => 'B' | 'c' => 'C' | 'd' => 'D' | 'e' => 'E'
  | 'f' => 'F' | 'g' => 'G' | 'h' => 'H' | 'i' => 'I' | 'j' => 'J'
  | 'k' => 'K' | 'l' => 'L' | 'm' => 'M' | 'n' => 'N' | 'o' => 'O'
  | 'p' => 'P' | 'q' => 'Q' | 'r' => 'R' | 's' => 'S' | 't' => 'T'
  | 'u' => 'U' | 'v' => 'V' | 'w' => 'W' | 'x' => 'X' | 'y' => 'Y'
  | 'z' => 'Z' | _ => c

/-- Lowercase an ASCII letter, other characters unchanged. -/
def charLower (c : Char) : Char :=
  match c with
  | 'A' => 'a' | 'B' => 'b' | 'C' => 'c' | 'D' => 'd' | 'E' => 'e'
  | 'F' => 'f' | 'G' => 'g' | 'H' => 'h' | 'I' => 'i' | 'J' => 'j'
  | 'K' => 'k' | 'L' => 'l' | 'M' => 'm' | 'N' => 'n' | 'O' => 'o'
  | 'P' => 'p' | 'Q' => 'q' | 'R' => 'r' | 'S' => 's' | 'T' => 't'
  | 'U' => 'u' | 'V' => 'v' | 'W' => 'w' | 'X' => 'x' | 'Y' => 'y'
  | 'Z' => 'z' | _ => c

/-- Model of JavaScript toUpperCase on the ASCII strings this code handles. -/
def strToUpper (s : String) : String := String.mk (s.toList.map charUpper)

/-- Model of JavaScript toLowerCase on the ASCII strings this code handles. -/
def strToLower (s : String) : String := String.mk (s.toList.map charLower)

/-- Model of JavaScript startsWith applied to the 0x prefix. -/
def startsWith0x (s : String) : Bool :=
  match s.toList with
  | '0' :: 'x' :: _ => true
  | _ => false

/-- Hexadecimal digit recogniser. -/
def isHexCh (c : Char) : Bool :=
  isDigitCh c || ('a' ≤ c && c ≤ 'f') || ('A' ≤ c && c ≤ 'F')

/-- Syntactically valid 20-byte address literal: 0x followed by exactly 40
hexadecimal characters. This is the specification's notion of a valid
address used to state the resolver claims; no handler in the sources
implements this check. -/
def isValidAddress (s : String) : Bool :=
  startsWith0x s && s.toList.length = 42 && (s.toList.drop 2).all isHexCh

/-! ### Token registry data (src/routes/batch-payments.ts,
src/routes/swap-data.ts and the Uniswap swap route file) -/

/-- Token metadata shape shared by the swap-route token tables; the batch
table has no name or pools fields and adds feeBps, see BatchTokenInfo. -/
structure TokenInfo where
  address : String
  symbol : String
  name : String
  decimals : Nat
  pools : List String
deriving DecidableEq

/-- Token metadata of the batch-payments table BASE_TOKENS: feeBps 0 means
use the process-wide default of 30 bps. -/
structure BatchTokenInfo where
  address : String
  symbol : String
  decimals : Nat
  feeBps : Nat
deriving DecidableEq

/-- V2 Spraay contract address. -/
def SPRAAY_V2 : String := "0x1646452F98E36A3c9Cfc3eDD8868221E207B5eEC"

/-- V3 Spraay contract address. -/
def SPRAAY_V3 : String := "0x3eFf027045230A277293aC27bd571FBC729e0dcE"

/-- Default protocol fee in basis points. -/
def SPRAAY_FEE_BPS : Nat := 30

/-- Batch-payments token table (BASE_TOKENS of batch-payments.ts), as an
ordered association list of symbol key to metadata. -/
def BATCH_TOKENS : List (String × BatchTokenInfo) :=
  [("USDC", ⟨"0x833589fCD6eDb6E08f4c7C32D4f71b54bdA02913", "USDC", 6, 0⟩),
   ("USDT", ⟨"0xfde4C96c8593536E31F229EA8f37b2ADa2699bb2", "USDT", 6, 0⟩),
   ("EURC", ⟨"0x60a3E35Cc302bFA44Cb288Bc5a4F316Fdb1adb42", "EURC", 6, 25⟩),
   ("DAI", ⟨"0x50c5725949A6F0c72E6C4a641F24049A917DB0Cb", "DAI", 18, 0⟩)]

/-- Swap-data token table (BASE_TOKENS of swap-data.ts). -/
def SWAP_TOKENS : List (String × TokenInfo) :=
  [("USDC", ⟨"0x833589fCD6eDb6E08f4c7C32D4f71b54bdA02913", "USDC",
    "USD Coin", 6, ["uniswap-v3", "aerodrome"]⟩),
   ("WETH", ⟨"0x4200000000000000000000000000000000000006", "WETH",
    "Wrapped Ether", 18, ["uniswap-v3", "aerodrome"]⟩),
   ("cbBTC", ⟨"0xcbB7C0000aB88B473b1f5aFd9ef808440eed33Bf", "cbBTC",
    "Coinbase Wrapped BTC", 8, ["uniswap-v3", "aerodrome"]⟩),
   ("AERO", ⟨"0x940181a94A35A4569E4529A3CDfB74e38FD98631", "AERO",
    "Aerodrome Finance", 18, ["aerodrome"]⟩),
   ("DEGEN", ⟨"0x4ed4E862860beD51a9570b96d89aF5E1B0Efefed", "DEGEN",
    "Degen", 18, ["uniswap-v3", "aerodrome"]⟩),
   ("BRETT", ⟨"0x532f27101965dd16442E59d40670FaF5eBB142E4", "BRETT",
    "Brett", 18, ["uniswap-v3"]⟩),
   ("TOSHI", ⟨"0xAC1Bd2486aAf3B5C0fc3Fd868558b082a531B2B4", "TOSHI",
    "Toshi", 18, ["uniswap-v3"]⟩),
   ("USDbC", ⟨"0xd9aAEc86B65D86f6A7B5B1b0c42FFA531710b6CA", "USDbC",
    "USD Base Coin", 6, ["uniswap-v3", "aerodrome"]⟩)]

/-- USDC entry of the Uniswap swap-route table. -/
def quoteUSDC : TokenInfo :=
  ⟨"0x833589fCD6eDb6E08f4c7C32D4f71b54bdA02913", "USDC", "USD Coin", 6,
   ["uniswap-v3", "aerodrome"]⟩

/-- WETH entry of the Uniswap swap-route table; its address is the two-hop
bridge asset of the quote search. -/
def quoteWETH : TokenInfo :=
  ⟨"0x4200000000000000000000000000000000000006", "WETH", "Wrapped Ether", 18,
   ["uniswap-v3", "aerodrome"]⟩

/-- DAI entry of the Uniswap swap-route table. -/
def quoteDAI : TokenInfo :=
  ⟨"0x50c5725949A6F0c72E6C4a641F24049A917DB0Cb", "DAI", "Dai Stablecoin", 18,
   ["uniswap-v3", "aerodrome"]⟩

/-- Key lookup in an ordered association table, modelling a JavaScript
object property read. -/
def lookupTok (table : List (String × α)) (k : String) : Option α :=
  (table.find? (fun kv => kv.1 == k)).map (·.2)

/-- Token resolver of swap-data.ts: case-insensitive symbol lookup via
toUpperCase, then a case-insensitive address scan over the table values,
else null. -/
def resolveToken (input : String) : Option TokenInfo :=
  match lookupTok SWAP_TOKENS (strToUpper input) with
  | some t => some t
  | none =>
    (SWAP_TOKENS.map (·.2)).find?
      (fun t => strToLower t.address == strToLower input)

/-- Resolved token fields of the V3 batch handler: address, decimals,
symbol and effective fee rate. -/
structure ResolvedTok where
  address : String
  decimals : Nat
  symbol : String
  feeBps : Nat
deriving DecidableEq

/-- Token resolution of batchPaymentV3Handler: any input starting with 0x
is accepted verbatim as an 18-decimals CUSTOM token at the default fee;
otherwise the uppercased input is looked up in the batch table, with the
feeBps-or-default JavaScript or-expression modelled as a zero test; unknown
symbols are rejected. -/
def resolveBatchV3 (tokenInput : String) : Except String ResolvedTok :=
  if startsWith0x tokenInput then
    .ok ⟨tokenInput, 18, "CUSTOM", SPRAAY_FEE_BPS⟩
  else
    match lookupTok BATCH_TOKENS (strToUpper tokenInput) with
    | some info =>
      .ok ⟨info.address, info.decimals, info.symbol,
        if info.feeBps = 0 then SPRAAY_FEE_BPS else info.feeBps⟩
    | none => .error "Token not supported"

/-! ### Fee and amount computation (batch-payments.ts) -/

/-- Protocol fee on a gross base-unit amount: BigInt multiplication by the
fee rate then BigInt division by 10000, which truncates toward zero. -/
def feeRawOf (totalRaw : Int) (feeBps : Nat) : Int :=
  Int.tdiv (totalRaw * (feeBps : Int)) 10000

/-- Amount pipeline shared by the V2 and V3 execute handlers: convert every
recipient amount to base units once via parseUnits, sum the converted
amounts with a BigInt fold, then derive fee and total; a parse failure
anywhere throws, modelled as none. Returns the on-chain recipient pairs,
grossAmount, feeAmount and totalWithFee. -/
def computeBatchAmounts (entries : List (String × String)) (decimals : Nat)
    (feeBps : Nat) : Option (List (String × Int) × Int × Int × Int) :=
  (entries.mapM
      (fun e => (parseUnits e.2 decimals).map (fun a => (e.1, a)))).map
    (fun onchain =>
      let totalRaw := onchain.foldl (fun acc r => acc + r.2) 0
      let feeRaw := feeRawOf totalRaw feeBps
      (onchain, totalRaw, feeRaw, totalRaw + feeRaw))

/-! ### Encoded contract calls and the batch handlers -/

/-- Symbolic form of the calldata produced with encodeFunctionData against
the Spraay ABIs; the ABI encoding itself is injective on these shapes. -/
inductive Calldata where
  | sprayToken (token : String) (recipients : List (String × Int))
  | sprayTokenWithMeta (token : String) (recipients : List (String × Int))
      (memo : String) (agentId : Nat)
deriving DecidableEq

/-- Transaction object of a batch response. -/
structure TxOut where
  toAddr : String
  data : Calldata
  value : Int
  chainId : Nat
deriving DecidableEq

/-- approvalRequired object of a batch response; amount is the decimal
toString of the BigInt totalWithFee, modelled as the integer itself. -/
structure ApprovalOut where
  token : String
  spender : String
  amount : Int
deriving DecidableEq

/-- Response of the V2 execute handler (success case). -/
structure BatchV2Resp where
  contract : String
  token : String
  tokenAddress : String
  recipientCount : Nat
  totalAmount : String
  fee : String
  totalWithFee : String
  transaction : TxOut
  approvalRequired : ApprovalOut
deriving DecidableEq

/-- V2 execute handler batchPaymentHandler: recipients must be a present,
non-empty array of at most 200 entries; amounts are converted at 6 decimals
(USDC only) with the flat 30 bps fee; the transaction is a sprayToken call
to the V2 contract with value 0, and an ERC-20 approval of totalWithFee to
the V2 contract is always required. A missing or non-array recipients value
is modelled as none. -/
def batchPaymentV2 (recipients : Option (List (String × String))) :
    Except String BatchV2Resp :=
  match recipients with
  | none => .error "recipients array required"
  | some rs =>
    if rs.length = 0 then .error "recipients array required"
    else if rs.length > 200 then .error "Maximum 200 recipients"
    else
      match computeBatchAmounts rs 6 SPRAAY_FEE_BPS with
      | none => .error "invalid amount"
      | some (onchain, totalRaw, feeRaw, totalWithFee) =>
        .ok { contract := SPRAAY_V2
              token := "USDC"
              tokenAddress := "0x833589fCD6eDb6E08f4c7C32D4f71b54bdA02913"
              recipientCount := rs.length
              totalAmount := formatUnitsInt totalRaw 6
              fee := formatUnitsInt feeRaw 6
              totalWithFee := formatUnitsInt totalWithFee 6
              transaction :=
                ⟨SPRAAY_V2,
                 .sprayToken "0x833589fCD6eDb6E08f4c7C32D4f71b54bdA02913"
                   onchain, 0, 8453⟩
              approvalRequired :=
                ⟨"0x833589fCD6eDb6E08f4c7C32D4f71b54bdA02913", SPRAAY_V2,
                 totalWithFee⟩ }

/-- Response of the V3 execute handler (success case). -/
structure BatchV3Resp where
  contract : String
  tokenSymbol : String
  tokenAddress : String
  tokenDecimals : Nat
  recipientCount : Nat
  totalAmount : String
  fee : String
  totalWithFee : String
  transaction : TxOut
  approvalRequired : ApprovalOut
  metaMemo : Option String
  metaAgentId : Option Nat
deriving DecidableEq

/-- V3 execute handler batchPaymentV3Handler: array-shape and size checks,
token resolution, the shared amount pipeline at the resolved decimals and
fee rate, then sprayTokenWithMeta when a memo or a positive agentId is
present and plain sprayToken otherwise; the transaction goes to the V3
contract with value 0 and an approval of totalWithFee to the V3 contract is
always required, whatever the token. -/
def batchPaymentV3 (tokenInput : String)
    (recipients : Option (List (String × String))) (memo : String)
    (agentId : Nat) : Except String BatchV3Resp :=
  match recipients with
  | none => .error "recipients array required"
  | some rs =>
    if rs.length = 0 then .error "recipients array required"
    else if rs.length > 200 then .error "Maximum 200 recipients"
    else
      match resolveBatchV3 tokenInput with
      | .error e => .error e
      | .ok tok =>
        match computeBatchAmounts rs tok.decimals tok.feeBps with
        | none => .error "invalid amount"
        | some (onchain, totalRaw, feeRaw, totalWithFee) =>
          let calldata :=
            if memo ≠ "" ∨ 0 < agentId then
              Calldata.sprayTokenWithMeta tok.address onchain memo agentId
            else Calldata.sprayToken tok.address onchain
          .ok { contract := SPRAAY_V3
                tokenSymbol := tok.symbol
                tokenAddress := tok.address
                tokenDecimals := tok.decimals
                recipientCount := rs.length
                totalAmount := formatUnitsInt totalRaw tok.decimals
                fee := formatUnitsInt feeRaw tok.decimals
                totalWithFee := formatUnitsInt totalWithFee tok.decimals
                transaction := ⟨SPRAAY_V3, calldata, 0, 8453⟩
                approvalRequired := ⟨tok.address, SPRAAY_V3, totalWithFee⟩
                metaMemo := if memo = "" then none else some memo
                metaAgentId := if agentId = 0 then none else some agentId }

/-! ### Estimate handlers -/

/-- Response of the V2 estimate handler. -/
structure EstResp where
  token : String
  recipientCount : Nat
  totalAmount : String
  fee : String
  totalWithFee : String
deriving DecidableEq

/-- V2 estimate handler batchEstimateHandler: only the presence of an array
is checked (an empty array passes, as does any length); amounts are summed
at 6 decimals with the flat 30 bps fee. -/
def batchEstimateV2 (recipients : Option (List String)) :
    Except String EstResp :=
  match recipients with
  | none => .error "recipients array required"
  | some rs =>
    match rs.mapM (fun a => parseUnits a 6) with
    | none => .error "invalid amount"
    | some amts =>
      let totalRaw := amts.foldl (fun acc a => acc + a) 0
      let feeRaw := feeRawOf totalRaw SPRAAY_FEE_BPS
      .ok { token := "USDC"
            recipientCount := rs.length
            totalAmount := formatUnitsInt totalRaw 6
            fee := formatUnitsInt feeRaw 6
            totalWithFee := formatUnitsInt (totalRaw + feeRaw) 6 }

/-- Symbol used by the V3 estimate handler: CUSTOM for 0x-prefixed inputs,
else the uppercased input. -/
def estTokenSymbol (tokenInput : String) : String :=
  if startsWith0x tokenInput then "CUSTOM" else strToUpper tokenInput

/-- Decimals used by the V3 estimate handler, a JavaScript or-expression
over the optional table hit, defaulting to 18. -/
def estTokenDecimals (tokenInput : String) : Nat :=
  match lookupTok BATCH_TOKENS (estTokenSymbol tokenInput) with
  | some info => if info.decimals = 0 then 18 else info.decimals
  | none => 18

/-- Fee rate used by the V3 estimate handler, defaulting to 30 bps. -/
def estTokenFeeBps (tokenInput : String) : Nat :=
  match lookupTok BATCH_TOKENS (estTokenSymbol tokenInput) with
  | some info => if info.feeBps = 0 then SPRAAY_FEE_BPS else info.feeBps
  | none => SPRAAY_FEE_BPS

/-- V3 estimate handler batchEstimateV3Handler: like the V2 estimate it
checks only that recipients is an array (no size bounds), and it never
rejects a token input - unknown symbols silently estimate at 18 decimals
and the default fee. -/
def batchEstimateV3 (tokenInput : String) (recipients : Option (List String)) :
    Except String EstResp :=
  match recipients with
  | none => .error "recipients array required"
  | some rs =>
    let decimals := estTokenDecimals tokenInput
    let feeBps := estTokenFeeBps tokenInput
    match rs.mapM (fun a => parseUnits a decimals) with
    | none => .error "invalid amount"
    | some amts =>
      let totalRaw := amts.foldl (fun acc a => acc + a) 0
      let feeRaw := feeRawOf totalRaw feeBps
      .ok { token := estTokenSymbol tokenInput
            recipientCount := rs.length
            totalAmount := formatUnitsInt totalRaw decimals
            fee := formatUnitsInt feeRaw decimals
            totalWithFee := formatUnitsInt (totalRaw + feeRaw) decimals }

/-! ### Multi-hop quote search (Uniswap swap route file, getUniswapQuote) -/

/-- Fixed Uniswap V3 fee tiers probed by the quote search. -/
def FEE_TIERS : List Nat := [500, 3000, 10000]

/-- External on-chain quoter, modelled as a function of the probe
parameters tokenIn address, tokenOut address, amountIn and fee tier to an
optional (amountOut, gasEstimate) pair; none models a probe whose
staticCall throws, whether because no pool exists for the tier or because
the transport failed - the code catches both identically and cannot
distinguish them. -/
def Oracle : Type :=
  String → String → Nat → Nat → Option (Nat × Nat)

/-- Best-quote candidate tracked by the search loops. -/
structure BestQuote where
  amountOut : Nat
  gasEstimate : Nat
  isMultihop : Bool
  path : String
deriving DecidableEq

/-- Mutable state of the search: the best quote so far plus the separately
tracked bestAmountOut and bestFee variables, exactly the three locals of
getUniswapQuote (bestAmountOut starts at 0n, so a successful probe whose
output is 0 never becomes the best quote). -/
structure SearchState where
  bestQuote : Option BestQuote
  bestAmountOut : Nat
  bestFee : Nat
deriving DecidableEq

/-- One direct-tier probe iteration: on success, adopt the result when its
output strictly beats bestAmountOut; on a thrown probe, continue. -/
def directStep (oracle : Oracle) (tokenIn tokenOut : TokenInfo)
    (amountInWei : Nat) (st : SearchState) (fee : Nat) : SearchState :=
  match oracle tokenIn.address tokenOut.address amountInWei fee with
  | none => st
  | some (amountOut, gas) =>
    if st.bestAmountOut < amountOut then
      ⟨some ⟨amountOut, gas, false, ""⟩, amountOut, fee⟩
    else st

/-- One two-hop probe iteration at a fee-tier pair: quote tokenIn to WETH
at fee1, feed its output as the input of WETH to tokenOut at fee2, and
adopt the composed result (summed gas) when its final output strictly
beats bestAmountOut; a throw in either hop skips the pair. -/
def hopStep (oracle : Oracle) (tokenIn tokenOut : TokenInfo)
    (amountInWei : Nat) (st : SearchState) (fee1 fee2 : Nat) : SearchState :=
  match oracle tokenIn.address quoteWETH.address amountInWei fee1 with
  | none => st
  | some (midOut, midGas) =>
    match oracle quoteWETH.address tokenOut.address midOut fee2 with
    | none => st
    | some (finOut, finGas) =>
      if st.bestAmountOut < finOut then
        ⟨some ⟨finOut, midGas + finGas, true,
           tokenIn.symbol ++ " → WETH → " ++ tokenOut.symbol⟩,
         finOut, fee1⟩
      else st

/-- Full search of getUniswapQuote: every direct fee tier in order, then -
only when no direct probe produced a positive output and neither token is
the WETH bridge (compared on lowercased addresses) - every ordered pair of
fee tiers through WETH. -/
def quoteSearch (oracle : Oracle) (tokenIn tokenOut : TokenInfo)
    (amountInWei : Nat) : SearchState :=
  let st := FEE_TIERS.foldl (directStep oracle tokenIn tokenOut amountInWei)
    ⟨none, 0, 0⟩
  if st.bestQuote.isNone then
    if strToLower tokenIn.address ≠ strToLower quoteWETH.address ∧
        strToLower tokenOut.address ≠ strToLower quoteWETH.address then
      FEE_TIERS.foldl
        (fun st1 fee1 =>
          FEE_TIERS.foldl
            (fun st2 fee2 =>
              hopStep oracle tokenIn tokenOut amountInWei st2 fee1 fee2)
            st1)
        st
    else st
  else st

/-- Fee-tier display label of the quote response. -/
def feeTierLabel (fee : Nat) : String :=
  if fee = 500 then "0.05%" else if fee = 3000 then "0.3%" else "1%"

/-- Success payload of getUniswapQuote; the floating-point display field
executionPrice is omitted, every other field is as returned by the code. -/
structure QuoteView where
  amountOut : String
  route : String
  dex : String
  feeTier : String
  priceImpact : String
  gasEstimate : String
deriving DecidableEq

/-- Error message thrown by getUniswapQuote when no probe at all produced a
positive output - the only failure outcome the search has, whatever the
reason every probe failed. -/
def noLiquidityMsg (tokenIn tokenOut : TokenInfo) : String :=
  "No liquidity found for " ++ tokenIn.symbol ++ " → " ++ tokenOut.symbol ++
    " on Uniswap V3"

/-- getUniswapQuote: run the search, throw the no-liquidity error when it
found nothing, otherwise format the best amountOut at the output token's
decimals and render the route (the two-hop path string when the winner was
a multi-hop probe, the direct pair otherwise). The handler converts the
human-readable amountIn to base units with parseUnits before the search;
the search itself is parameterised here directly by that base-unit amount. -/
def getUniswapQuote (oracle : Oracle) (tokenIn tokenOut : TokenInfo)
    (amountInWei : Nat) : Except String QuoteView :=
  let st := quoteSearch oracle tokenIn tokenOut amountInWei
  match st.bestQuote with
  | none => .error (noLiquidityMsg tokenIn tokenOut)
  | some bq =>
    .ok { amountOut := formatUnits bq.amountOut tokenOut.decimals
          route :=
            if bq.isMultihop then bq.path
            else tokenIn.symbol ++ " → " ++ tokenOut.symbol
          dex := "uniswap-v3"
          feeTier := feeTierLabel st.bestFee
          priceImpact := "live"
          gasEstimate := toString bq.gasEstimate }

/-! ### Concrete oracles used to instantiate the quote theorems -/

/-- Oracle on which every probe throws, for the all-probes-fail scenario. -/
def oracleDown : Oracle := fun _ _ _ _ => none

/-- Oracle with exactly two pools, USDC to WETH at tier 500 and WETH to DAI
at tier 3000, instantiating the bridge-routing scenario. -/
def oracleBridge : Oracle := fun tin tout amt fee =>
  if tin = quoteUSDC.address ∧ tout = quoteWETH.address ∧ amt = 1000000 ∧
      fee = 500 then some (123, 10)
  else if tin = quoteWETH.address ∧ tout = quoteDAI.address ∧ amt = 123 ∧
      fee = 3000 then some (456, 20)
  else none

/-- Oracle like oracleBridge except that the second hop WETH to DAI returns
a zero output, instantiating the zero-output bridge scenario. -/
def oracleBridgeZero : Oracle := fun tin tout amt fee =>
  if tin = quoteUSDC.address ∧ tout = quoteWETH.address ∧ amt = 1000000 ∧
      fee = 500 then some (123, 10)
  else if tin = quoteWETH.address ∧ tout = quoteDAI.address ∧ amt = 123 ∧
      fee = 3000 then some (0, 20)
  else none

/-- Oracle with exactly two pools, USDC to WETH at tier 500 and WETH back to
USDC at tier 3000, instantiating the self-swap round trip. -/
def oracleRoundTrip : Oracle := fun tin tout amt fee =>
  if tin = quoteUSDC.address ∧ tout = quoteWETH.address ∧ amt = 1000000 ∧
      fee = 500 then some (111, 5)
  else if tin = quoteWETH.address ∧ tout = quoteUSDC.address ∧ amt = 111 ∧
      fee = 3000 then some (222, 7)
  else none

/-! ### Digit lemmas -/

theorem foldl_digits_eq (l : List Nat) :
    ∀ s : Nat, l.foldl (fun a d => 10 * a + d) s = s * 10 ^ l.length + ofDigits l := by
  induction l with
  | nil => intro s; simp [ofDigits]
  | cons d l ih =>
    intro s
    have hd : ofDigits (d :: l) = d * 10 ^ l.length + ofDigits l := by
      simpa [ofDigits] using ih d
    simp only [List.foldl_cons, List.length_cons, ih, hd]
    ring

theorem ofDigits_cons (d : Nat) (l : List Nat) :
    ofDigits (d :: l) = d * 10 ^ l.length + ofDigits l := by
  simpa [ofDigits] using foldl_digits_eq l d

theorem ofDigits_append (l1 l2 : List Nat) :
    ofDigits (l1 ++ l2) = ofDigits l1 * 10 ^ l2.length + ofDigits l2 := by
  simpa [ofDigits, List.foldl_append] using foldl_digits_eq l2 (ofDigits l1)

theorem ofDigits_replicate_zero (k : Nat) : ofDigits (List.replicate k 0) = 0 := by
  induction k with
  | zero => rfl
  | succ k ih => simpa [List.replicate_succ, ofDigits_cons] using ih

theorem ofDigits_pad (k : Nat) (l : List Nat) :
    ofDigits (List.replicate k 0 ++ l) = ofDigits l := by
  simp [ofDigits_append, ofDigits_replicate_zero]

theorem ofDigits_zeros_suffix (l : List Nat) (k : Nat) :
    ofDigits (l ++ List.replicate k 0) = ofDigits l * 10 ^ k := by
  simp [ofDigits_append, ofDigits_replicate_zero]

theorem natDigitsAux_fuel :
    ∀ f g n : Nat, n < f → n < g → natDigitsAux f n = natDigitsAux g n := by
  intro f
  induction f with
  | zero => intro g n h; omega
  | succ f ih =>
    intro g n hf hg
    match g, hg with
    | g + 1, hg =>
      show natDigitsAux (f + 1) n = natDigitsAux (g + 1) n
      by_cases h10 : n < 10
      · simp [natDigitsAux, h10]
      · have hdiv : n / 10 < n := Nat.div_lt_self (by omega) (by omega)
        have h1 : n / 10 < f := by omega
        have h2 : n / 10 < g := by omega
        simp [natDigitsAux, h10, ih g (n / 10) h1 (by omega)]

theorem natDigits_eq (n : Nat) :
    natDigits n = if n < 10 then [n] else natDigits (n / 10) ++ [n % 10] := by
  by_cases h10 : n < 10
  · simp [natDigits, natDigitsAux, h10]
  · have hdiv : n / 10 < n := Nat.div_lt_self (by omega) (by omega)
    have : natDigitsAux n (n / 10) = natDigitsAux (n / 10 + 1) (n / 10) :=
      natDigitsAux_fuel n (n / 10 + 1) (n / 10) hdiv (Nat.lt_succ_self _)
    simp [natDigits, natDigitsAux, h10]
    match n, h10 with
    | n + 1, h10 =>
      simpa [natDigitsAux] using this

theorem ofDigits_natDigits (n : Nat) : ofDigits (natDigits n) = n := by
  induction n using Nat.strong_induction_on with
  | _ n ih =>
    rw [natDigits_eq]
    by_cases h10 : n < 10
    · simp [h10, ofDigits]
    · have hdiv : n / 10 < n := Nat.div_lt_self (by omega) (by omega)
      simp only [h10, if_false, ofDigits_append, ih (n / 10) hdiv]
      have : ofDigits [n % 10] = n % 10 := by simp [ofDigits]
      rw [this]
      simp
      omega

theorem natDigits_ne_nil (n : Nat) : natDigits n ≠ [] := by
  rw [natDigits_eq]
  by_cases h10 : n < 10 <;> simp [h10]

theorem natDigits_lt_ten (n : Nat) : ∀ x ∈ natDigits n, x < 10 := by
  induction n using Nat.strong_induction_on with
  | _ n ih =>
    rw [natDigits_eq]
    by_cases h10 : n < 10
    · simp [h10]
    · have hdiv : n / 10 < n := Nat.div_lt_self (by omega) (by omega)
      simp only [h10, if_false]
      intro x hx
      rcases List.mem_append.mp hx with h | h
      · exact ih (n / 10) hdiv x h
      · simp at h
        omega

theorem natDigits_length_le (n k : Nat) (hn : n < 10 ^ k) (hk : 1 ≤ k) :
    (natDigits n).length ≤ k := by
  induction n using Nat.strong_induction_on generalizing k with
  | _ n ih =>
    rw [natDigits_eq]
    by_cases h10 : n < 10
    · simp only [h10, if_true, List.length_cons, List.length_nil]
      omega
    · have hdiv : n / 10 < n := Nat.div_lt_self (by omega) (by omega)
      have hk2 : 2 ≤ k := by
        by_contra hc
        have : k = 1 := by omega
        subst this
        simp at hn
        omega
      have hpow : 10 * 10 ^ (k - 1) = 10 ^ k := by
        rw [← pow_succ']
        congr 1
        omega
      have hlt : n / 10 < 10 ^ (k - 1) := by
        exact Nat.div_lt_of_lt_mul (by omega)
      have := ih (n / 10) hdiv (k - 1) hlt (by omega)
      simp only [h10, if_false, List.length_append, List.length_cons,
        List.length_nil]
      omega

/-! ### Digit character lemmas -/

theorem digitVal_digitChar : ∀ x < 10, digitVal (Nat.digitChar x) = x := by decide

theorem isDigitCh_digitChar : ∀ x < 10, isDigitCh (Nat.digitChar x) = true := by
  decide

theorem digitChar_ne_dot : ∀ x < 10, Nat.digitChar x ≠ '.' := by decide

theorem digitChar_ne_dash : ∀ x < 10, Nat.digitChar x ≠ '-' := by decide

theorem chunkVal_map_digitChar (l : List Nat) (hl : ∀ x ∈ l, x < 10) :
    chunkVal (l.map Nat.digitChar) = ofDigits l := by
  suffices h : ∀ s : Nat,
      (l.map Nat.digitChar).foldl (fun a c => 10 * a + digitVal c) s =
        l.foldl (fun a d => 10 * a + d) s by
    exact h 0
  induction l with
  | nil => intro s; rfl
  | cons d l ih =>
    intro s
    have hd : d < 10 := hl d (by simp)
    have hrec := ih (fun x hx => hl x (by simp [hx]))
    simp only [List.map_cons, List.foldl_cons, digitVal_digitChar d hd, hrec]

theorem all_isDigitCh_map (l : List Nat) (hl : ∀ x ∈ l, x < 10) :
    (l.map Nat.digitChar).all isDigitCh = true := by
  rw [List.all_eq_true]
  intro c hc
  rcases List.mem_map.mp hc with ⟨x, hx, rfl⟩
  exact isDigitCh_digitChar x (hl x hx)

theorem dot_not_mem_map (l : List Nat) (hl : ∀ x ∈ l, x < 10) :
    '.' ∉ l.map Nat.digitChar := by
  intro hc
  rcases List.mem_map.mp hc with ⟨x, hx, he⟩
  exact digitChar_ne_dot x (hl x hx) he

theorem contains_eq_false_of_not_mem {l : List Char} {c : Char} (h : c ∉ l) :
    l.contains c = false := by
  simpa using h

theorem splitDot_no_dot (w : List Char) (hw : '.' ∉ w) :
    splitDot w = some (w, []) := by
  induction w with
  | nil => rfl
  | cons c rest ih =>
    have hc : c ≠ '.' := fun he => hw (by simp [he])
    have hrest : '.' ∉ rest := fun he => hw (by simp [he])
    simp [splitDot, hc, ih hrest]

theorem splitDot_append (w f : List Char) (hw : '.' ∉ w) (hf : '.' ∉ f) :
    splitDot (w ++ '.' :: f) = some (w, f) := by
  induction w with
  | nil =>
    have hc : f.contains '.' = false := contains_eq_false_of_not_mem hf
    simp only [List.nil_append, splitDot, hc]
    simp
  | cons c rest ih =>
    have hc : c ≠ '.' := fun he => hw (by simp [he])
    have hrest : '.' ∉ rest := fun he => hw (by simp [he])
    simp [splitDot, hc, ih hrest]

/-! ### Fraction padding and trimming lemmas -/

theorem padFrac_length (d : Nat) (l : List Nat) (h : l.length ≤ d) :
    (padFrac d l).length = d := by
  simp [padFrac]
  omega

theorem ofDigits_padFrac (d : Nat) (l : List Nat) :
    ofDigits (padFrac d l) = ofDigits l := ofDigits_pad _ _

theorem padFrac_lt_ten (d : Nat) (l : List Nat) (hl : ∀ x ∈ l, x < 10) :
    ∀ x ∈ padFrac d l, x < 10 := by
  intro x hx
  rcases List.mem_append.mp hx with h | h
  · have := List.eq_of_mem_replicate h
    omega
  · exact hl x h

theorem trimFrac_spec (p : List Nat) :
    (trimFrac p = [0] ∧ ofDigits p = 0) ∨
      (∃ k, p = trimFrac p ++ List.replicate k 0 ∧
        (trimFrac p).length + k = p.length ∧ trimFrac p ≠ []) := by
  by_cases hz : p.reverse.dropWhile (· == 0) = []
  · left
    constructor
    · simp [trimFrac, hz]
    · have hall : ∀ x ∈ p.reverse, x = 0 := by
        intro x hx
        have := List.dropWhile_eq_nil_iff.mp hz x hx
        simpa using this
      have : p = List.replicate p.length 0 := by
        apply List.eq_replicate_of_mem
        intro b hb
        exact hall b (by simpa using hb)
      rw [this, ofDigits_replicate_zero]
  · right
    set t := (p.reverse.dropWhile (· == 0)).reverse with ht
    have htne : t ≠ [] := by simpa [ht] using hz
    have htrim : trimFrac p = t := by simp [trimFrac, ← ht, List.isEmpty_iff, htne]
    refine ⟨(p.reverse.takeWhile (· == 0)).length, ?_, ?_, htrim ▸ htne⟩
    · have hsplit : p.reverse.takeWhile (· == 0) ++ p.reverse.dropWhile (· == 0)
          = p.reverse := List.takeWhile_append_dropWhile _ _
      have hrep : p.reverse.takeWhile (· == 0) =
          List.replicate (p.reverse.takeWhile (· == 0)).length 0 := by
        apply List.eq_replicate_of_mem
        intro b hb
        have := List.mem_takeWhile_imp hb
        simpa using this
      rw [htrim, ht]
      have h2 : p = (p.reverse.dropWhile (· == 0)).reverse ++
          (p.reverse.takeWhile (· == 0)).reverse := by
        have h3 := congrArg List.reverse hsplit.symm
        rw [List.reverse_reverse, List.reverse_append] at h3
        exact h3
      have h4 : (p.reverse.takeWhile (· == 0)).reverse =
          List.replicate (p.reverse.takeWhile (· == 0)).length 0 := by
        conv_lhs => rw [hrep]
        simp only [List.reverse_replicate]
      conv_lhs => rw [h2]
      rw [h4]
    · have hsplit : p.reverse.takeWhile (· == 0) ++ p.reverse.dropWhile (· == 0)
          = p.reverse := List.takeWhile_append_dropWhile _ _
      have hlen := congrArg List.length hsplit
      rw [List.length_append] at hlen
      rw [htrim, ht]
      simp only [List.length_reverse] at hlen ⊢
      omega

theorem trimFrac_length_le (p : List Nat) : (trimFrac p).length ≤ max 1 p.length := by
  rcases trimFrac_spec p with ⟨h, _⟩ | ⟨k, _, hlen, _⟩
  · simp [h]
  · omega

theorem trimFrac_lt_ten (p : List Nat) (hp : ∀ x ∈ p, x < 10) :
    ∀ x ∈ trimFrac p, x < 10 := by
  rcases trimFrac_spec p with ⟨h, _⟩ | ⟨k, heq, _, _⟩
  · intro x hx
    rw [h] at hx
    simp at hx
    omega
  · intro x hx
    exact hp x (heq ▸ List.mem_append.mpr (Or.inl hx))

theorem ofDigits_trimFrac (p : List Nat) :
    ofDigits (trimFrac p) * 10 ^ (p.length - (trimFrac p).length) = ofDigits p := by
  rcases trimFrac_spec p with ⟨h, h0⟩ | ⟨k, heq, hlen, _⟩
  · rw [h, h0]
    simp [ofDigits]
  · have : p.length - (trimFrac p).length = k := by omega
    rw [this]
    conv_rhs => rw [heq]
    rw [ofDigits_zeros_suffix]

/-! ### Round-trip of the amount conversions -/

theorem chunkVal_nil : chunkVal [] = 0 := rfl

theorem parseUnitsCore_formatChars (v d : Nat) :
    parseUnitsCore (formatChars v d) d = some v := by
  by_cases hd : d = 0
  · subst hd
    have hlt := natDigits_lt_ten v
    have hsplit := splitDot_no_dot ((natDigits v).map Nat.digitChar)
      (dot_not_mem_map _ hlt)
    have hne : (natDigits v).map Nat.digitChar ≠ [] := by
      simpa using natDigits_ne_nil v
    rw [show formatChars v 0 = (natDigits v).map Nat.digitChar from by
      simp [formatChars]]
    rw [parseUnitsCore, hsplit, Option.some_bind]
    rw [if_pos]
    · rw [chunkVal_map_digitChar _ hlt, ofDigits_natDigits]
      simp [chunkVal_nil]
    · simp only [Bool.and_eq_true, decide_eq_true_eq]
      refine ⟨⟨⟨all_isDigitCh_map _ hlt, by simp⟩, ?_⟩, by simp⟩
      have := List.length_pos.mpr hne
      simpa using this
  · have hd1 : 1 ≤ d := by omega
    have hq := natDigits_lt_ten (v / 10 ^ d)
    have hrlt : v % 10 ^ d < 10 ^ d := Nat.mod_lt _ (Nat.pos_pow_of_pos d (by omega))
    have hDlen : (natDigits (v % 10 ^ d)).length ≤ d :=
      natDigits_length_le _ d hrlt hd1
    have hPlen : (padFrac d (natDigits (v % 10 ^ d))).length = d :=
      padFrac_length d _ hDlen
    have hPlt : ∀ x ∈ padFrac d (natDigits (v % 10 ^ d)), x < 10 :=
      padFrac_lt_ten d _ (natDigits_lt_ten _)
    have hTlt := trimFrac_lt_ten _ hPlt
    have hTlen : (trimFrac (padFrac d (natDigits (v % 10 ^ d)))).length ≤ d := by
      have := trimFrac_length_le (padFrac d (natDigits (v % 10 ^ d)))
      rw [hPlen] at this
      omega
    have hsplit := splitDot_append
      ((natDigits (v / 10 ^ d)).map Nat.digitChar)
      ((trimFrac (padFrac d (natDigits (v % 10 ^ d)))).map Nat.digitChar)
      (dot_not_mem_map _ hq) (dot_not_mem_map _ hTlt)
    have hWne : (natDigits (v / 10 ^ d)).map Nat.digitChar ≠ [] := by
      simpa using natDigits_ne_nil (v / 10 ^ d)
    rw [show formatChars v d = (natDigits (v / 10 ^ d)).map Nat.digitChar ++
        '.' :: (trimFrac (padFrac d (natDigits (v % 10 ^ d)))).map Nat.digitChar
      from by simp [formatChars, hd]]
    rw [parseUnitsCore, hsplit, Option.some_bind]
    rw [if_pos]
    · rw [chunkVal_map_digitChar _ hq, ofDigits_natDigits,
        chunkVal_map_digitChar _ hTlt]
      have hr : ofDigits (trimFrac (padFrac d (natDigits (v % 10 ^ d)))) *
          10 ^ (d - ((trimFrac (padFrac d (natDigits (v % 10 ^ d)))).map
            Nat.digitChar).length) = v % 10 ^ d := by
        have := ofDigits_trimFrac (padFrac d (natDigits (v % 10 ^ d)))
        rw [hPlen] at this
        rw [List.length_map]
        rw [this, ofDigits_padFrac, ofDigits_natDigits]
      rw [hr]
      exact congrArg some (Nat.div_add_mod' v (10 ^ d))
    · simp only [Bool.and_eq_true, decide_eq_true_eq]
      refine ⟨⟨⟨all_isDigitCh_map _ hq, all_isDigitCh_map _ hTlt⟩, ?_⟩, ?_⟩
      · have := List.length_pos.mpr hWne
        omega
      · rw [List.length_map]
        exact hTlen

theorem formatChars_head (v d : Nat) :
    ∃ a rest, a < 10 ∧ formatChars v d = Nat.digitChar a :: rest := by
  by_cases hd : d = 0
  · subst hd
    rcases hne : natDigits v with _ | ⟨a, l⟩
    · exact absurd hne (natDigits_ne_nil v)
    · have ha : a < 10 := natDigits_lt_ten v a (by rw [hne]; simp)
      exact ⟨a, l.map Nat.digitChar, ha, by simp [formatChars, hne]⟩
  · rcases hne : natDigits (v / 10 ^ d) with _ | ⟨a, l⟩
    · exact absurd hne (natDigits_ne_nil _)
    · have ha : a < 10 := natDigits_lt_ten _ a (by rw [hne]; simp)
      refine ⟨a, l.map Nat.digitChar ++
        '.' :: (trimFrac (padFrac d (natDigits (v % 10 ^ d)))).map Nat.digitChar,
        ha, ?_⟩
      simp [formatChars, hd, hne]

theorem toList_mk (l : List Char) : (String.mk l).toList = l := rfl

theorem parseUnits_formatUnits (v d : Nat) :
    parseUnits (formatUnits v d) d = some (v : Int) := by
  rcases formatChars_head v d with ⟨a, rest, ha, heq⟩
  have hne : Nat.digitChar a ≠ '-' := digitChar_ne_dash a ha
  simp only [parseUnits, formatUnits, toList_mk, heq, if_neg hne]
  rw [← heq, parseUnitsCore_formatChars]
  rfl

theorem parseUnits_formatUnitsInt (v : Int) (d : Nat) :
    parseUnits (formatUnitsInt v d) d = some v := by
  by_cases hv : v < 0
  · have heq : formatUnitsInt v d = String.mk ('-' :: formatChars v.natAbs d) := by
      simp [formatUnitsInt, hv]
    rw [heq]
    have hstep : parseUnits (String.mk ('-' :: formatChars v.natAbs d)) d =
        (parseUnitsCore (formatChars v.natAbs d) d).map (fun n => -(Int.ofNat n)) := by
      simp [parseUnits, toList_mk]
    rw [hstep, parseUnitsCore_formatChars, Option.map_some']
    have h2 : (v.natAbs : Int) = -v :=
      Int.ofNat_natAbs_of_nonpos (le_of_lt hv)
    rw [Int.ofNat_eq_natCast, h2, neg_neg]
  · have heq : formatUnitsInt v d = formatUnits v.natAbs d := by
      simp [formatUnitsInt, hv]
    rw [heq, parseUnits_formatUnits]
    rw [Int.natAbs_of_nonneg (by omega)]


/-! ### Division bound lemmas for the fee aggregation -/

theorem div_add_div_le (a b c : Nat) (hc : 0 < c) :
    a / c + b / c ≤ (a + b) / c := by
  rw [Nat.le_div_iff_mul_le hc]
  have ha : a / c * c ≤ a := Nat.div_mul_le_self a c
  have hb : b / c * c ≤ b := Nat.div_mul_le_self b c
  calc (a / c + b / c) * c = a / c * c + b / c * c := by ring
    _ ≤ a + b := by omega

theorem add_div_lt (a b c : Nat) (hc : 0 < c) :
    (a + b) / c < a / c + b / c + 2 := by
  rw [Nat.div_lt_iff_lt_mul hc]
  have ha := Nat.div_add_mod a c
  have hb := Nat.div_add_mod b c
  have ham : a % c < c := Nat.mod_lt _ hc
  have hbm : b % c < c := Nat.mod_lt _ hc
  have hexp : (a / c + b / c + 2) * c = c * (a / c) + c * (b / c) + 2 * c := by
    ring
  rw [hexp]
  linarith

theorem sum_div_le_div_sum (l : List Nat) (c : Nat) (hc : 0 < c) :
    (l.map (· / c)).sum ≤ l.sum / c := by
  induction l with
  | nil => simp
  | cons a l ih =>
    simp only [List.map_cons, List.sum_cons]
    calc a / c + (l.map (· / c)).sum ≤ a / c + l.sum / c := by omega
      _ ≤ (a + l.sum) / c := div_add_div_le a l.sum c hc

theorem div_sum_lt_sum_div (l : List Nat) (c : Nat) (hc : 0 < c)
    (hl : l ≠ []) :
    l.sum / c < (l.map (· / c)).sum + l.length := by
  induction l with
  | nil => exact absurd rfl hl
  | cons a l ih =>
    by_cases hln : l = []
    · subst hln
      simp
    · have hrec := ih hln
      simp only [List.map_cons, List.sum_cons, List.length_cons]
      have hstep := add_div_lt a l.sum c hc
      omega

theorem sum_map_mul_const (l : List Nat) (k : Nat) :
    (l.map (· * k)).sum = l.sum * k := by
  induction l with
  | nil => simp
  | cons a l ih =>
    simp only [List.map_cons, List.sum_cons, ih]
    ring

/-! ### Integer bridging lemmas for the fee computation -/

theorem int_tdiv_ofNat (m k : Nat) :
    Int.tdiv (Int.ofNat m) (Int.ofNat k) = Int.ofNat (m / k) := rfl

theorem int_fdiv_ofNat (m k : Nat) :
    Int.fdiv (Int.ofNat m) (Int.ofNat k) = Int.ofNat (m / k) := by
  cases m with
  | zero => simp [Int.fdiv]
  | succ m => rfl

theorem feeRawOf_ofNat (n bps : Nat) :
    feeRawOf (Int.ofNat n) bps = Int.ofNat (n * bps / 10000) := by
  show Int.tdiv (Int.ofNat n * (bps : Int)) 10000 = Int.ofNat (n * bps / 10000)
  rw [show ((bps : Nat) : Int) = Int.ofNat bps from rfl,
    show (Int.ofNat n * Int.ofNat bps) = Int.ofNat (n * bps) from rfl,
    show (10000 : Int) = Int.ofNat 10000 from rfl, int_tdiv_ofNat]

theorem feeRawOf_eq_floor (t : Int) (bps : Nat) (h : 0 ≤ t) :
    feeRawOf t bps = Int.fdiv (t * (bps : Int)) 10000 := by
  obtain ⟨n, rfl⟩ := Int.eq_ofNat_of_zero_le h
  rw [show ((n : Nat) : Int) = Int.ofNat n from rfl, feeRawOf_ofNat]
  rw [show ((bps : Nat) : Int) = Int.ofNat bps from rfl,
    show (Int.ofNat n * Int.ofNat bps) = Int.ofNat (n * bps) from rfl,
    show (10000 : Int) = Int.ofNat 10000 from rfl, int_fdiv_ofNat]

/-! ### List lemmas for the amount pipeline -/

theorem foldl_add_snd (rs : List (String × Int)) :
    ∀ s : Int, rs.foldl (fun acc r => acc + r.2) s = s + (rs.map (·.2)).sum := by
  induction rs with
  | nil => intro s; simp
  | cons r rs ih =>
    intro s
    simp only [List.foldl_cons, List.map_cons, List.sum_cons, ih]
    ring

theorem foldl_add_id (amts : List Int) :
    ∀ s : Int, amts.foldl (fun acc a => acc + a) s = s + amts.sum := by
  induction amts with
  | nil => intro s; simp
  | cons a amts ih =>
    intro s
    simp only [List.foldl_cons, List.sum_cons, ih]
    ring

theorem mapM_pair_eq {entries : List (String × String)} {d : Nat}
    {amounts : List Int}
    (h : entries.mapM (fun e => parseUnits e.2 d) = some amounts) :
    entries.mapM (fun e => (parseUnits e.2 d).map (fun a => (e.1, a))) =
      some ((entries.map Prod.fst).zip amounts) ∧
      amounts.length = entries.length := by
  induction entries generalizing amounts with
  | nil =>
    simp only [List.mapM_nil, pure, Option.some.injEq] at h
    subst h
    exact ⟨rfl, rfl⟩
  | cons e es ih =>
    rw [List.mapM_cons] at h
    rcases he : parseUnits e.2 d with _ | a
    · rw [he] at h
      simp at h
    · rw [he] at h
      rcases hes : es.mapM (fun e => parseUnits e.2 d) with _ | as
      · rw [hes] at h
        simp at h
      · rw [hes] at h
        simp only [Option.bind_eq_bind, Option.some_bind, Option.map_some',
          pure, Option.some.injEq] at h
        obtain ⟨hpair, hlen⟩ := ih hes
        subst h
        refine ⟨?_, by simp [hlen]⟩
        rw [List.mapM_cons, he, hpair]
        simp [List.zip]

theorem computeBatchAmounts_eq {entries : List (String × String)} {d : Nat}
    {amounts : List Int} (feeBps : Nat)
    (h : entries.mapM (fun e => parseUnits e.2 d) = some amounts) :
    computeBatchAmounts entries d feeBps =
      some ((entries.map Prod.fst).zip amounts, amounts.sum,
        feeRawOf amounts.sum feeBps,
        amounts.sum + feeRawOf amounts.sum feeBps) := by
  obtain ⟨hpair, hlen⟩ := mapM_pair_eq h
  have hsnd : (((entries.map Prod.fst).zip amounts).map (·.2)) = amounts := by
    apply List.map_snd_zip
    simp [hlen]
  rw [computeBatchAmounts, hpair, Option.map_some']
  rw [foldl_add_snd, hsnd]
  simp

/-! ### Quote search lemmas -/

theorem quoteSearch_all_fail (oracle : Oracle) (tokenIn tokenOut : TokenInfo)
    (amt : Nat)
    (hd : ∀ f ∈ FEE_TIERS, oracle tokenIn.address tokenOut.address amt f = none)
    (hh : ∀ f ∈ FEE_TIERS, oracle tokenIn.address quoteWETH.address amt f = none) :
    quoteSearch oracle tokenIn tokenOut amt = ⟨none, 0, 0⟩ := by
  have d1 := hd 500 (by decide)
  have d2 := hd 3000 (by decide)
  have d3 := hd 10000 (by decide)
  have b1 := hh 500 (by decide)
  have b2 := hh 3000 (by decide)
  have b3 := hh 10000 (by decide)
  simp only [quoteSearch, FEE_TIERS, List.foldl_cons, List.foldl_nil,
    directStep, d1, d2, d3, Option.isNone_none, if_true]
  by_cases hc : strToLower tokenIn.address ≠ strToLower quoteWETH.address ∧
      strToLower tokenOut.address ≠ strToLower quoteWETH.address
  · rw [if_pos hc]
    simp only [List.foldl_cons, List.foldl_nil, hopStep, b1, b2, b3]
  · rw [if_neg hc]

theorem getUniswapQuote_all_fail (oracle : Oracle)
    (tokenIn tokenOut : TokenInfo) (amt : Nat)
    (hd : ∀ f ∈ FEE_TIERS, oracle tokenIn.address tokenOut.address amt f = none)
    (hh : ∀ f ∈ FEE_TIERS, oracle tokenIn.address quoteWETH.address amt f = none) :
    getUniswapQuote oracle tokenIn tokenOut amt =
      .error (noLiquidityMsg tokenIn tokenOut) := by
  rw [getUniswapQuote, quoteSearch_all_fail oracle tokenIn tokenOut amt hd hh]

theorem quoteSearch_two_hop (oracle : Oracle) (tokenIn tokenOut : TokenInfo)
    (amt fA fB O1 O2 g1 g2 : Nat)
    (hXw : strToLower tokenIn.address ≠ strToLower quoteWETH.address)
    (hZw : strToLower tokenOut.address ≠ strToLower quoteWETH.address)
    (hd : ∀ f ∈ FEE_TIERS, oracle tokenIn.address tokenOut.address amt f = none)
    (h1 : ∀ f ∈ FEE_TIERS, oracle tokenIn.address quoteWETH.address amt f =
      if f = fA then some (O1, g1) else none)
    (h2 : ∀ f ∈ FEE_TIERS, oracle quoteWETH.address tokenOut.address O1 f =
      if f = fB then some (O2, g2) else none)
    (hfa : fA ∈ FEE_TIERS) (hfb : fB ∈ FEE_TIERS) (hO2 : 0 < O2) :
    quoteSearch oracle tokenIn tokenOut amt =
      ⟨some ⟨O2, g1 + g2, true,
        tokenIn.symbol ++ " → WETH → " ++ tokenOut.symbol⟩, O2, fA⟩ := by
  have d1 := hd 500 (by decide)
  have d2 := hd 3000 (by decide)
  have d3 := hd 10000 (by decide)
  have e1 := h1 500 (by decide)
  have e2 := h1 3000 (by decide)
  have e3 := h1 10000 (by decide)
  have k1 := h2 500 (by decide)
  have k2 := h2 3000 (by decide)
  have k3 := h2 10000 (by decide)
  simp only [FEE_TIERS, List.mem_cons, List.mem_singleton,
    List.not_mem_nil, or_false] at hfa hfb
  rcases hfa with rfl | rfl | rfl <;> rcases hfb with rfl | rfl | rfl <;>
    simp only [show ((500 : Nat) = 500) = True from by simp,
      show ((3000 : Nat) = 3000) = True from by simp,
      show ((10000 : Nat) = 10000) = True from by simp,
      show ((500 : Nat) = 3000) = False from by simp,
      show ((500 : Nat) = 10000) = False from by simp,
      show ((3000 : Nat) = 500) = False from by simp,
      show ((3000 : Nat) = 10000) = False from by simp,
      show ((10000 : Nat) = 500) = False from by simp,
      show ((10000 : Nat) = 3000) = False from by simp,
      if_true, if_false] at e1 e2 e3 k1 k2 k3 <;>
  · simp only [quoteSearch, FEE_TIERS, List.foldl_cons, List.foldl_nil,
      directStep, d1, d2, d3, Option.isNone_none, if_true]
    rw [if_pos ⟨hXw, hZw⟩]
    simp only [List.foldl_cons, List.foldl_nil, hopStep, e1, e2, e3, k1, k2, k3]
    simp [hO2]

theorem quoteSearch_two_hop_zero (oracle : Oracle) (tokenIn tokenOut : TokenInfo)
    (amt fA fB O1 g1 g2 : Nat)
    (hXw : strToLower tokenIn.address ≠ strToLower quoteWETH.address)
    (hZw : strToLower tokenOut.address ≠ strToLower quoteWETH.address)
    (hd : ∀ f ∈ FEE_TIERS, oracle tokenIn.address tokenOut.address amt f = none)
    (h1 : ∀ f ∈ FEE_TIERS, oracle tokenIn.address quoteWETH.address amt f =
      if f = fA then some (O1, g1) else none)
    (h2 : ∀ f ∈ FEE_TIERS, oracle quoteWETH.address tokenOut.address O1 f =
      if f = fB then some (0, g2) else none)
    (hfa : fA ∈ FEE_TIERS) (hfb : fB ∈ FEE_TIERS) :
    quoteSearch oracle tokenIn tokenOut amt = ⟨none, 0, 0⟩ := by
  have d1 := hd 500 (by decide)
  have d2 := hd 3000 (by decide)
  have d3 := hd 10000 (by decide)
  have e1 := h1 500 (by decide)
  have e2 := h1 3000 (by decide)
  have e3 := h1 10000 (by decide)
  have k1 := h2 500 (by decide)
  have k2 := h2 3000 (by decide)
  have k3 := h2 10000 (by decide)
  simp only [FEE_TIERS, List.mem_cons, List.mem_singleton,
    List.not_mem_nil, or_false] at hfa hfb
  rcases hfa with rfl | rfl | rfl <;> rcases hfb with rfl | rfl | rfl <;>
    simp only [show ((500 : Nat) = 500) = True from by simp,
      show ((3000 : Nat) = 3000) = True from by simp,
      show ((10000 : Nat) = 10000) = True from by simp,
      show ((500 : Nat) = 3000) = False from by simp,
      show ((500 : Nat) = 10000) = False from by simp,
      show ((3000 : Nat) = 500) = False from by simp,
      show ((3000 : Nat) = 10000) = False from by simp,
      show ((10000 : Nat) = 500) = False from by simp,
      show ((10000 : Nat) = 3000) = False from by simp,
      if_true, if_false] at e1 e2 e3 k1 k2 k3 <;>
  · simp only [quoteSearch, FEE_TIERS, List.foldl_cons, List.foldl_nil,
      directStep, d1, d2, d3, Option.isNone_none, if_true]
    rw [if_pos ⟨hXw, hZw⟩]
    simp only [List.foldl_cons, List.foldl_nil, hopStep, e1, e2, e3, k1, k2, k3]
    simp

theorem getUniswapQuote_two_hop (oracle : Oracle) (tokenIn tokenOut : TokenInfo)
    (amt fA fB O1 O2 g1 g2 : Nat)
    (hXw : strToLower tokenIn.address ≠ strToLower quoteWETH.address)
    (hZw : strToLower tokenOut.address ≠ strToLower quoteWETH.address)
    (hd : ∀ f ∈ FEE_TIERS, oracle tokenIn.address tokenOut.address amt f = none)
    (h1 : ∀ f ∈ FEE_TIERS, oracle tokenIn.address quoteWETH.address amt f =
      if f = fA then some (O1, g1) else none)
    (h2 : ∀ f ∈ FEE_TIERS, oracle quoteWETH.address tokenOut.address O1 f =
      if f = fB then some (O2, g2) else none)
    (hfa : fA ∈ FEE_TIERS) (hfb : fB ∈ FEE_TIERS) (hO2 : 0 < O2) :
    getUniswapQuote oracle tokenIn tokenOut amt =
      .ok ⟨formatUnits O2 tokenOut.decimals,
        tokenIn.symbol ++ " → WETH → " ++ tokenOut.symbol,
        "uniswap-v3", feeTierLabel fA, "live", toString (g1 + g2)⟩ := by
  rw [getUniswapQuote, quoteSearch_two_hop oracle tokenIn tokenOut amt fA fB O1
    O2 g1 g2 hXw hZw hd h1 h2 hfa hfb hO2]
  simp

theorem sum_map_ofNat (l : List Nat) (g : Nat → Nat) :
    (l.map (fun a => Int.ofNat (g a))).sum = Int.ofNat ((l.map g).sum) := by
  induction l with
  | nil => rfl
  | cons a l ih =>
    simp only [Int.ofNat_eq_natCast] at ih ⊢
    simp only [List.map_cons, List.sum_cons, ih, Nat.cast_add]

/-! ### Claim theorems -/

/-- C7: on the concrete batch with token USDC (6 decimals, default 30 bps
fee) and recipients R1 at 10.00 and R2 at 25.50, the computed grossAmount is
exactly 35500000 base units, feeAmount exactly 106500, totalWithFee exactly
35606500, and the V2 execute response requires an approval on USDC's address
for exactly totalWithFee. -/
theorem c7_concrete :
    computeBatchAmounts
      [("0x1111111111111111111111111111111111111111", "10.00"),
       ("0x2222222222222222222222222222222222222222", "25.50")] 6
      SPRAAY_FEE_BPS =
      some ([("0x1111111111111111111111111111111111111111", 10000000),
        ("0x2222222222222222222222222222222222222222", 25500000)],
        35500000, 106500, 35606500) ∧
    batchPaymentV2
      (some [("0x1111111111111111111111111111111111111111", "10.00"),
        ("0x2222222222222222222222222222222222222222", "25.50")]) =
      .ok { contract := SPRAAY_V2
            token := "USDC"
            tokenAddress := "0x833589fCD6eDb6E08f4c7C32D4f71b54bdA02913"
            recipientCount := 2
            totalAmount := "35.5"
            fee := "0.1065"
            totalWithFee := "35.6065"
            transaction := ⟨SPRAAY_V2,
              .sprayToken "0x833589fCD6eDb6E08f4c7C32D4f71b54bdA02913"
                [("0x1111111111111111111111111111111111111111", 10000000),
                 ("0x2222222222222222222222222222222222222222", 25500000)],
              0, 8453⟩
            approvalRequired :=
              ⟨"0x833589fCD6eDb6E08f4c7C32D4f71b54bdA02913", SPRAAY_V2,
               35606500⟩ } := by
  decide

/-- C9 counterexample: toBaseUnits of the valid decimal string 10.00 at
6 decimals is 10000000, but formatting 10000000 back at 6 decimals yields
10.0, which is not the original string - the round trip does not reproduce
the string exactly. -/
theorem c9_counterexample :
    parseUnits "10.00" 6 = some 10000000 ∧
    formatUnits 10000000 6 = "10.0" ∧
    ("10.0" : String) ≠ "10.00" := by
  decide

/-- C9 amended: the conversion round-trips at the level of values rather
than strings - for every base-unit value v and precision d, formatting v at
precision d and parsing the result back yields exactly v, with no drift. -/
theorem c9_amended (v : Int) (d : Nat) :
    parseUnits (formatUnitsInt v d) d = some v :=
  parseUnits_formatUnitsInt v d

/-- C8 counterexample: on the concrete two-recipient batch of 0.0005 USDC
each at 30 bps, the code's aggregate fee is 3 base units while the sum of
per-entry fees is 2 - the two ways of computing feeAmount disagree. -/
theorem c8_counterexample :
    computeBatchAmounts [("0xaa", "0.0005"), ("0xbb", "0.0005")] 6 30 =
      some ([("0xaa", 500), ("0xbb", 500)], 1000, 3, 1003) ∧
    feeRawOf 500 30 + feeRawOf 500 30 = 2 ∧ (3 : Int) ≠ 2 := by
  decide

/-- C8 amended: for every non-empty recipient set and every fee rate, the
fee computed once over the aggregate (the code's computation) is at least
the sum of per-entry fees, and exceeds it by less than the number of
entries; equality does not hold in general. -/
theorem c8_amended (amounts : List Nat) (bps : Nat) (hne : amounts ≠ []) :
    (amounts.map (fun a => feeRawOf (Int.ofNat a) bps)).sum ≤
      feeRawOf (Int.ofNat amounts.sum) bps ∧
    feeRawOf (Int.ofNat amounts.sum) bps <
      (amounts.map (fun a => feeRawOf (Int.ofNat a) bps)).sum +
        (amounts.length : Int) := by
  have hmap : amounts.map (fun a => feeRawOf (Int.ofNat a) bps) =
      amounts.map (fun a => Int.ofNat (a * bps / 10000)) := by
    apply List.map_congr_left
    intro a _
    exact feeRawOf_ofNat a bps
  have hsum : (amounts.map (fun a => Int.ofNat (a * bps / 10000))).sum =
      Int.ofNat ((amounts.map (fun a => a * bps / 10000)).sum) :=
    sum_map_ofNat amounts (fun a => a * bps / 10000)
  have h2 : (amounts.map (· * bps)).map (· / 10000) =
      amounts.map (fun a => a * bps / 10000) := by
    rw [List.map_map]
    rfl
  have hnatA : (amounts.map (fun a => a * bps / 10000)).sum ≤
      amounts.sum * bps / 10000 := by
    have h1 := sum_div_le_div_sum (amounts.map (· * bps)) 10000 (by omega)
    rw [h2, sum_map_mul_const] at h1
    exact h1
  have hnatB : amounts.sum * bps / 10000 <
      (amounts.map (fun a => a * bps / 10000)).sum + amounts.length := by
    have hmne : amounts.map (· * bps) ≠ [] := by
      simpa using hne
    have h1 := div_sum_lt_sum_div (amounts.map (· * bps)) 10000 (by omega) hmne
    rw [h2, sum_map_mul_const, List.length_map] at h1
    exact h1
  rw [hmap, hsum, feeRawOf_ofNat]
  simp only [Int.ofNat_eq_natCast]
  constructor
  · exact_mod_cast hnatA
  · exact_mod_cast hnatB

/-- C8 witness: the amended bounds instantiated on the two-entry amount list
500, 500 at 30 bps. -/
theorem c8_witness :
    ([(500 : Nat), 500].map (fun a => feeRawOf (Int.ofNat a) 30)).sum ≤
      feeRawOf (Int.ofNat ([(500 : Nat), 500]).sum) 30 ∧
    feeRawOf (Int.ofNat ([(500 : Nat), 500]).sum) 30 <
      ([(500 : Nat), 500].map (fun a => feeRawOf (Int.ofNat a) 30)).sum +
        (([(500 : Nat), 500] : List Nat).length : Int) :=
  c8_amended [500, 500] 30 (by decide)

/-- C1: for every batch whose recipient amounts all parse (each human
decimal string converted to base units exactly once, before summation) and
are non-negative, the V3 amount pipeline yields grossAmount equal to the
exact integer sum of the per-recipient base-unit amounts, feeAmount equal
to the floor of grossAmount times effectiveFeeBps over 10000, and
totalWithFee equal to grossAmount plus feeAmount, all in unbounded integer
arithmetic; and the effective fee rate is the token's per-token override
when present (non-zero) and the process-wide default of 30 bps otherwise,
for table symbols and 0x-address tokens alike. -/
theorem c1_compute (entries : List (String × String)) (decimals feeBps : Nat)
    (amounts : List Int)
    (hparse : entries.mapM (fun e => parseUnits e.2 decimals) = some amounts)
    (hpos : ∀ a ∈ amounts, 0 ≤ a) :
    computeBatchAmounts entries decimals feeBps =
      some ((entries.map Prod.fst).zip amounts, amounts.sum,
        Int.fdiv (amounts.sum * (feeBps : Int)) 10000,
        amounts.sum + Int.fdiv (amounts.sum * (feeBps : Int)) 10000) ∧
    (∀ s info, startsWith0x s = false →
      lookupTok BATCH_TOKENS (strToUpper s) = some info →
      resolveBatchV3 s = .ok ⟨info.address, info.decimals, info.symbol,
        if info.feeBps = 0 then SPRAAY_FEE_BPS else info.feeBps⟩) ∧
    (∀ s, startsWith0x s = true →
      resolveBatchV3 s = .ok ⟨s, 18, "CUSTOM", SPRAAY_FEE_BPS⟩) := by
  refine ⟨?_, ?_, ?_⟩
  · have hfloor : feeRawOf amounts.sum feeBps =
        Int.fdiv (amounts.sum * (feeBps : Int)) 10000 :=
      feeRawOf_eq_floor amounts.sum feeBps (List.sum_nonneg hpos)
    rw [computeBatchAmounts_eq feeBps hparse, hfloor]
  · intro s info hs hlook
    simp only [resolveBatchV3, hs, Bool.false_eq_true, if_false, hlook]
  · intro s hs
    simp only [resolveBatchV3, hs, if_true]

/-- C1 witness: the pipeline instantiated on a one-recipient batch of 10.00
at 6 decimals with the EURC override rate of 25 bps. -/
theorem c1_witness :
    computeBatchAmounts [("0x3333333333333333333333333333333333333333",
      "10.00")] 6 25 =
      some ([("0x3333333333333333333333333333333333333333", 10000000)],
        10000000, Int.fdiv ((10000000 : Int) * (25 : Nat)) 10000,
        10000000 + Int.fdiv ((10000000 : Int) * (25 : Nat)) 10000) :=
  (c1_compute [("0x3333333333333333333333333333333333333333", "10.00")] 6 25
    [10000000] (by decide) (by decide)).1

/-- C10: the estimate handlers enforce no batch-size bounds at all - for
every well-formed recipients array whose amounts parse, including the empty
array and arrays longer than 200 entries, the V2 and V3 estimates succeed
with recipientCount equal to the array's length and the totals derived
from the sum of the entries (zero for the empty array); only a missing or
non-array recipients value is rejected. -/
theorem c10_estimates :
    (batchEstimateV2 none = .error "recipients array required") ∧
    (∀ tokenInput, batchEstimateV3 tokenInput none =
      .error "recipients array required") ∧
    (∀ rs amts, rs.mapM (fun a => parseUnits a 6) = some amts →
      batchEstimateV2 (some rs) = .ok ⟨"USDC", rs.length,
        formatUnitsInt amts.sum 6,
        formatUnitsInt (feeRawOf amts.sum SPRAAY_FEE_BPS) 6,
        formatUnitsInt (amts.sum + feeRawOf amts.sum SPRAAY_FEE_BPS) 6⟩) ∧
    (∀ tokenInput rs amts,
      rs.mapM (fun a => parseUnits a (estTokenDecimals tokenInput)) =
        some amts →
      batchEstimateV3 tokenInput (some rs) = .ok ⟨estTokenSymbol tokenInput,
        rs.length,
        formatUnitsInt amts.sum (estTokenDecimals tokenInput),
        formatUnitsInt (feeRawOf amts.sum (estTokenFeeBps tokenInput))
          (estTokenDecimals tokenInput),
        formatUnitsInt (amts.sum + feeRawOf amts.sum (estTokenFeeBps tokenInput))
          (estTokenDecimals tokenInput)⟩) := by
  refine ⟨rfl, fun _ => rfl, ?_, ?_⟩
  · intro rs amts h
    simp only [batchEstimateV2, h]
    rw [foldl_add_id]
    simp
  · intro tokenInput rs amts h
    simp only [batchEstimateV3, estTokenDecimals, estTokenFeeBps,
      estTokenSymbol] at h ⊢
    rw [h]
    simp only [foldl_add_id, zero_add]

set_option maxRecDepth 4096 in
/-- C10 witness: the estimates succeed on the empty recipients array and on
a 201-entry array, sizes the execute handlers reject. -/
theorem c10_witness :
    batchEstimateV2 (some []) = .ok ⟨"USDC", 0,
      formatUnitsInt ([] : List Int).sum 6,
      formatUnitsInt (feeRawOf ([] : List Int).sum SPRAAY_FEE_BPS) 6,
      formatUnitsInt (([] : List Int).sum +
        feeRawOf ([] : List Int).sum SPRAAY_FEE_BPS) 6⟩ ∧
    batchEstimateV2 (some (List.replicate 201 "1.0")) = .ok ⟨"USDC", 201,
      formatUnitsInt (List.replicate 201 (Int.ofNat 1000000)).sum 6,
      formatUnitsInt (feeRawOf (List.replicate 201 (Int.ofNat 1000000)).sum
        SPRAAY_FEE_BPS) 6,
      formatUnitsInt ((List.replicate 201 (Int.ofNat 1000000)).sum +
        feeRawOf (List.replicate 201 (Int.ofNat 1000000)).sum
          SPRAAY_FEE_BPS) 6⟩ :=
  ⟨by
    have h := c10_estimates.2.2.1 [] [] (by decide)
    simpa using h,
   by
    have h := c10_estimates.2.2.1 (List.replicate 201 "1.0")
      (List.replicate 201 (Int.ofNat 1000000)) (by decide)
    simpa using h⟩

/-- C2 counterexample: a batch over the native sentinel token (the all-zero
address) still produces an ERC-20 approval requirement for totalWithFee and
attaches value 0 to the transaction - not the claimed single call with
totalWithFee as the attached value; the composer has no native-asset path. -/
theorem c2_counterexample :
    (batchPaymentV3 "0x0000000000000000000000000000000000000000"
      (some [("0x1111111111111111111111111111111111111111", "1.0")]) "" 0).map
      (fun r => (r.approvalRequired, r.transaction.value)) =
      .ok (⟨"0x0000000000000000000000000000000000000000", SPRAAY_V3,
        1003000000000000000⟩, 0) ∧
    (1003000000000000000 : Int) ≠ 0 := by
  decide

/-- C2 amended: for every valid batch intent, whatever the token (including
the native sentinel address - there is no native-asset path), compose
returns the ordered pair of an ERC-20 approval requirement first (token
address, spender the V3 batch contract, amount totalWithFee) and the
encoded batch-spray call second, with the transaction's attached value
always 0. -/
theorem c2_amended (tokenInput : String) (rs : List (String × String))
    (memo : String) (agentId : Nat) (tok : ResolvedTok)
    (onchain : List (String × Int)) (g f t : Int)
    (hlen1 : rs.length ≠ 0) (hlen2 : ¬ rs.length > 200)
    (hres : resolveBatchV3 tokenInput = .ok tok)
    (hcomp : computeBatchAmounts rs tok.decimals tok.feeBps =
      some (onchain, g, f, t)) :
    ∃ resp, batchPaymentV3 tokenInput (some rs) memo agentId = .ok resp ∧
      resp.approvalRequired = ⟨tok.address, SPRAAY_V3, t⟩ ∧
      resp.transaction.toAddr = SPRAAY_V3 ∧
      resp.transaction.value = 0 ∧
      (resp.transaction.data = Calldata.sprayToken tok.address onchain ∨
        resp.transaction.data =
          Calldata.sprayTokenWithMeta tok.address onchain memo agentId) := by
  simp only [batchPaymentV3, if_neg hlen1, if_neg hlen2, hres, hcomp]
  by_cases hm : memo ≠ "" ∨ 0 < agentId
  · rw [if_pos hm]
    exact ⟨_, rfl, rfl, rfl, rfl, Or.inr rfl⟩
  · rw [if_neg hm]
    exact ⟨_, rfl, rfl, rfl, rfl, Or.inl rfl⟩

/-- C2 witness: the amended statement instantiated on a one-recipient batch
over the native sentinel address. -/
theorem c2_witness :
    ∃ resp, batchPaymentV3 "0x0000000000000000000000000000000000000000"
      (some [("0x1111111111111111111111111111111111111111", "1.0")]) "" 0 =
        .ok resp ∧
      resp.approvalRequired = ⟨"0x0000000000000000000000000000000000000000",
        SPRAAY_V3, 1003000000000000000⟩ ∧
      resp.transaction.toAddr = SPRAAY_V3 ∧
      resp.transaction.value = 0 ∧
      (resp.transaction.data =
        Calldata.sprayToken "0x0000000000000000000000000000000000000000"
          [("0x1111111111111111111111111111111111111111",
            1000000000000000000)] ∨
        resp.transaction.data =
          Calldata.sprayTokenWithMeta
            "0x0000000000000000000000000000000000000000"
            [("0x1111111111111111111111111111111111111111",
              1000000000000000000)] "" 0) :=
  c2_amended "0x0000000000000000000000000000000000000000"
    [("0x1111111111111111111111111111111111111111", "1.0")] "" 0
    ⟨"0x0000000000000000000000000000000000000000", 18, "CUSTOM",
      SPRAAY_FEE_BPS⟩
    [("0x1111111111111111111111111111111111111111", 1000000000000000000)]
    1000000000000000000 3000000000000000 1003000000000000000
    (by decide) (by decide) (by decide) (by decide)

/-- C6 counterexample: the syntactically valid 20-byte address consisting
of 0x and forty 1 digits is absent from the swap token table; the swap-data
resolver returns null for it (the handler then fails with an unknown-token
error, against the claimed totality), and the V3 batch resolver that does
accept arbitrary addresses labels them CUSTOM, not UNKNOWN. -/
theorem c6_counterexample :
    isValidAddress "0x1111111111111111111111111111111111111111" = true ∧
    resolveToken "0x1111111111111111111111111111111111111111" = none ∧
    resolveBatchV3 "0x1111111111111111111111111111111111111111" =
      .ok ⟨"0x1111111111111111111111111111111111111111", 18, "CUSTOM",
        SPRAAY_FEE_BPS⟩ := by
  decide

/-- C6 amended: totality over addresses holds only for the V3 batch
resolver, which accepts every 0x-prefixed input (even syntactically invalid
ones) as an 18-decimals token with symbol CUSTOM at the default fee; the
swap-data resolver instead returns no descriptor for any input that is
neither a table symbol (after uppercasing) nor a table address, valid
address or not. -/
theorem c6_amended :
    (∀ s, startsWith0x s = true →
      resolveBatchV3 s = .ok ⟨s, 18, "CUSTOM", SPRAAY_FEE_BPS⟩) ∧
    (∀ s, lookupTok SWAP_TOKENS (strToUpper s) = none →
      (∀ t ∈ SWAP_TOKENS.map (·.2), strToLower t.address ≠ strToLower s) →
      resolveToken s = none) := by
  constructor
  · intro s hs
    simp only [resolveBatchV3, hs, if_true]
  · intro s hlook haddr
    simp only [resolveToken, hlook]
    apply List.find?_eq_none.mpr
    intro t ht
    simp only [beq_eq_false_iff_ne, ne_eq, beq_iff_eq]
    exact haddr t ht

/-- C6 witness: the amended resolver behaviors instantiated on a concrete
0x-prefixed string and on a concrete valid address absent from the table. -/
theorem c6_witness :
    resolveBatchV3 "0xdeadbeef" =
      .ok ⟨"0xdeadbeef", 18, "CUSTOM", SPRAAY_FEE_BPS⟩ ∧
    resolveToken "0x1212121212121212121212121212121212121212" = none :=
  ⟨c6_amended.1 "0xdeadbeef" (by decide),
   c6_amended.2 "0x1212121212121212121212121212121212121212" (by decide)
     (by decide)⟩

/-- C3 counterexample: in exactly the claimed scenario - no direct USDC to
DAI pool at any tier, the only pools being USDC to WETH at tier 500 (output
123) and WETH to DAI at tier 3000 - but with the second hop's output O2
equal to 0, the quote does not return O2 with the multi-hop flag: the
strict-greater best-so-far comparison (initialized to 0) never adopts a
zero output, and the operation throws the no-liquidity error instead. -/
theorem c3_counterexample :
    (∀ f ∈ FEE_TIERS,
      oracleBridgeZero quoteUSDC.address quoteDAI.address 1000000 f = none) ∧
    oracleBridgeZero quoteUSDC.address quoteWETH.address 1000000 500 =
      some (123, 10) ∧
    oracleBridgeZero quoteWETH.address quoteDAI.address 123 3000 =
      some (0, 20) ∧
    getUniswapQuote oracleBridgeZero quoteUSDC quoteDAI 1000000 =
      .error "No liquidity found for USDC → DAI on Uniswap V3" := by
  decide

/-- C3 amended: when no direct probe between two non-bridge tokens succeeds,
the search runs every ordered pair of fee tiers through the WETH bridge,
feeding the first hop's output as the second hop's input; in the scenario
where only the pools tokenIn to WETH at tier fA (output O1) and WETH to
tokenOut at tier fB (output O2 when fed O1) exist, the quote returns O2
with the multi-hop flag set and the route tokenIn, WETH, tokenOut provided
O2 is positive, while a zero O2 is never adopted (the best-so-far
comparison is strict against an initial 0) and the operation fails with the
no-liquidity error. -/
theorem c3_two_hop (oracle : Oracle) (tokenIn tokenOut : TokenInfo)
    (amt fA fB O1 O2 g1 g2 : Nat)
    (hXw : strToLower tokenIn.address ≠ strToLower quoteWETH.address)
    (hZw : strToLower tokenOut.address ≠ strToLower quoteWETH.address)
    (hd : ∀ f ∈ FEE_TIERS, oracle tokenIn.address tokenOut.address amt f = none)
    (h1 : ∀ f ∈ FEE_TIERS, oracle tokenIn.address quoteWETH.address amt f =
      if f = fA then some (O1, g1) else none)
    (h2 : ∀ f ∈ FEE_TIERS, oracle quoteWETH.address tokenOut.address O1 f =
      if f = fB then some (O2, g2) else none)
    (hfa : fA ∈ FEE_TIERS) (hfb : fB ∈ FEE_TIERS) :
    (0 < O2 →
      quoteSearch oracle tokenIn tokenOut amt =
        ⟨some ⟨O2, g1 + g2, true,
          tokenIn.symbol ++ " → WETH → " ++ tokenOut.symbol⟩, O2, fA⟩ ∧
      getUniswapQuote oracle tokenIn tokenOut amt =
        .ok ⟨formatUnits O2 tokenOut.decimals,
          tokenIn.symbol ++ " → WETH → " ++ tokenOut.symbol,
          "uniswap-v3", feeTierLabel fA, "live", toString (g1 + g2)⟩) ∧
    (O2 = 0 →
      getUniswapQuote oracle tokenIn tokenOut amt =
        .error (noLiquidityMsg tokenIn tokenOut)) := by
  constructor
  · intro hO2
    exact ⟨quoteSearch_two_hop oracle tokenIn tokenOut amt fA fB O1 O2 g1 g2
        hXw hZw hd h1 h2 hfa hfb hO2,
      getUniswapQuote_two_hop oracle tokenIn tokenOut amt fA fB O1 O2 g1 g2
        hXw hZw hd h1 h2 hfa hfb hO2⟩
  · intro h0
    subst h0
    rw [getUniswapQuote, quoteSearch_two_hop_zero oracle tokenIn tokenOut amt
      fA fB O1 g1 g2 hXw hZw hd h1 h2 hfa hfb]

/-- C3 witness: the amended statement instantiated on both sides - the
positive-output bridge oracle (second hop yields 456, the quote returns it
multi-hop) and the zero-output bridge oracle (second hop yields 0, the
quote fails with the no-liquidity error). -/
theorem c3_witness :
    (quoteSearch oracleBridge quoteUSDC quoteDAI 1000000 =
      ⟨some ⟨456, 30, true, "USDC → WETH → DAI"⟩, 456, 500⟩ ∧
    getUniswapQuote oracleBridge quoteUSDC quoteDAI 1000000 =
      .ok ⟨formatUnits 456 18, "USDC → WETH → DAI", "uniswap-v3", "0.05%",
        "live", "30"⟩) ∧
    getUniswapQuote oracleBridgeZero quoteUSDC quoteDAI 1000000 =
      .error (noLiquidityMsg quoteUSDC quoteDAI) :=
  ⟨(c3_two_hop oracleBridge quoteUSDC quoteDAI 1000000 500 3000 123 456 10 20
      (by decide) (by decide) (by decide) (by decide) (by decide)
      (by decide) (by decide)).1 (by decide),
   (c3_two_hop oracleBridgeZero quoteUSDC quoteDAI 1000000 500 3000 123 0 10 20
      (by decide) (by decide) (by decide) (by decide) (by decide)
      (by decide) (by decide)).2 rfl⟩

/-- C4 counterexample: quote of the self-swap pair USDC, USDC does not fail
with any InvalidPair outcome - there is no self-swap check - and on an
oracle whose bridge pools allow the round trip USDC to WETH to USDC it
returns a successful two-hop quote. -/
theorem c4_counterexample :
    getUniswapQuote oracleRoundTrip quoteUSDC quoteUSDC 1000000 =
      .ok ⟨"0.000222", "USDC → WETH → USDC", "uniswap-v3", "0.05%", "live",
        "12"⟩ := by
  decide

/-- C4 amended: the quote operation performs no self-swap rejection; a pair
with tokenIn equal to tokenOut is probed exactly like any other pair, and
when the direct probes fail but a two-hop round trip through the WETH
bridge succeeds, quote(A, A, x) returns that round-trip result instead of
failing. -/
theorem c4_amended (oracle : Oracle) (A : TokenInfo)
    (amt fA fB O1 O2 g1 g2 : Nat)
    (hAw : strToLower A.address ≠ strToLower quoteWETH.address)
    (hd : ∀ f ∈ FEE_TIERS, oracle A.address A.address amt f = none)
    (h1 : ∀ f ∈ FEE_TIERS, oracle A.address quoteWETH.address amt f =
      if f = fA then some (O1, g1) else none)
    (h2 : ∀ f ∈ FEE_TIERS, oracle quoteWETH.address A.address O1 f =
      if f = fB then some (O2, g2) else none)
    (hfa : fA ∈ FEE_TIERS) (hfb : fB ∈ FEE_TIERS) (hO2 : 0 < O2) :
    getUniswapQuote oracle A A amt =
      .ok ⟨formatUnits O2 A.decimals,
        A.symbol ++ " → WETH → " ++ A.symbol,
        "uniswap-v3", feeTierLabel fA, "live", toString (g1 + g2)⟩ :=
  getUniswapQuote_two_hop oracle A A amt fA fB O1 O2 g1 g2
    hAw hAw hd h1 h2 hfa hfb hO2

/-- C4 witness: the amended statement instantiated on the round-trip oracle
with USDC as both input and output token. -/
theorem c4_witness :
    getUniswapQuote oracleRoundTrip quoteUSDC quoteUSDC 1000000 =
      .ok ⟨formatUnits 222 6, "USDC → WETH → USDC", "uniswap-v3",
        feeTierLabel 500, "live", toString (5 + 7)⟩ :=
  c4_amended oracleRoundTrip quoteUSDC 1000000 500 3000 111 222 5 7
    (by decide) (by decide) (by decide) (by decide) (by decide)
    (by decide) (by decide)

/-- C5 counterexample: on an oracle where every probe errors at the
transport level, the quote fails with the very same no-liquidity error
message the search uses when pools are merely missing - there is no
distinct QuoteProviderUnavailable outcome anywhere in the code. -/
theorem c5_counterexample :
    getUniswapQuote oracleDown quoteUSDC quoteDAI 5 =
      .error "No liquidity found for USDC → DAI on Uniswap V3" ∧
    getUniswapQuote oracleDown quoteUSDC quoteDAI 5 =
      .error (noLiquidityMsg quoteUSDC quoteDAI) := by
  decide

/-- C5 amended: an individual probe that throws is skipped exactly like a
missing pool (the code catches both identically and cannot distinguish
them), and when every probe in the search space fails - for any reason -
the operation fails with the single no-liquidity error; no separate
QuoteProviderUnavailable failure kind exists. -/
theorem c5_amended (oracle : Oracle) (tokenIn tokenOut : TokenInfo)
    (amt : Nat)
    (hd : ∀ f ∈ FEE_TIERS, oracle tokenIn.address tokenOut.address amt f = none)
    (hh : ∀ f ∈ FEE_TIERS, oracle tokenIn.address quoteWETH.address amt f = none) :
    getUniswapQuote oracle tokenIn tokenOut amt =
      .error (noLiquidityMsg tokenIn tokenOut) :=
  getUniswapQuote_all_fail oracle tokenIn tokenOut amt hd hh

/-- C5 witness: the amended statement instantiated on the all-errors oracle
for the USDC, DAI pair. -/
theorem c5_witness :
    getUniswapQuote oracleDown quoteUSDC quoteDAI 5 =
      .error (noLiquidityMsg quoteUSDC quoteDAI) :=
  c5_amended oracleDown quoteUSDC quoteDAI 5 (by decide) (by decide)

end S2P
